import Mathlib

/-!
Verification of the RoadNerd diagnostic-pipeline core against its
natural-language specification.

The Lean definitions below are a shallow embedding of the Python modules
`poc/core/modules/command_executor.py` and
`poc/core/modules/brainstorm_engine.py`.  Python strings become `String`,
Python lists become `List`, Python dicts with a fixed key set become
structures, Python floats become exact rationals `ℚ` (the numeric literals
involved are all decimal and the claims' comparisons are far from float
rounding error), and the two I/O boundaries (the subprocess call in
`execute_safely` and the LLM call in `generate_ideas`) become explicit
parameters: a shell oracle together with a spawn counter, and the LLM's
textual reply taken as an input string.  String primitives of Python
(`in`, `lower`, `strip`, `startswith`, `replace`) are modelled directly
on character lists so that every definition evaluates inside the kernel.
-/

namespace RoadNerd

/-! ### String helpers mirroring Python's `str` primitives -/

/-- Index of the first occurrence of `pat` in a character list, if any.
Mirrors Python's substring search used by the `in` operator (the empty
pattern occurs at index 0, as in Python). -/
def firstIdxOf (pat : List Char) : List Char → Option Nat
  | [] => if pat.isEmpty then some 0 else none
  | c :: rest =>
      if pat.isPrefixOf (c :: rest) then some 0
      else (firstIdxOf pat rest).map (· + 1)

/-- Python's `pat in s` substring test. -/
def substrOf (pat s : String) : Bool :=
  (firstIdxOf pat.data s.data).isSome

/-- Python's `str.lower()` (ASCII case mapping, which covers every string
the code and claims use). -/
def lowerStr (s : String) : String :=
  String.mk (s.data.map Char.toLower)

/-- Python's `str.startswith(p)`. -/
def strStartsWith (s p : String) : Bool :=
  p.data.isPrefixOf s.data

/-- Drop leading whitespace from a character list. -/
def trimLeftList : List Char → List Char
  | [] => []
  | c :: rest => if c.isWhitespace then trimLeftList rest else c :: rest

/-- Python's `str.strip()`: drop leading and trailing whitespace. -/
def strTrim (s : String) : String :=
  String.mk ((trimLeftList (trimLeftList s.data).reverse).reverse)

/-! ### CommandExecutor (`command_executor.py`) -/

/-- The `dangerous_patterns` list of `CommandExecutor.analyze_command`. -/
def dangerous_patterns : List String :=
  ["rm -rf", "dd if=", "mkfs", "> /dev/", "format"]

/-- The dangerous patterns that occur in `cmd.lower()`, in the order the
source's `for pattern in dangerous_patterns` loop visits them. -/
def dangerHits (cmd : String) : List String :=
  dangerous_patterns.filter (fun p => substrOf p (lowerStr cmd))

/-- The dict returned by `analyze_command`; its concrete key set is
recorded separately in `analyze_command_keys`. -/
structure CommandAnalysis where
  command : String
  risk_level : String
  warnings : List String
  requires_sudo : Bool
deriving DecidableEq

/-- The exact key set of the dict literal returned by
`CommandExecutor.analyze_command` (source lines 32–37). -/
def analyze_command_keys : List String :=
  ["command", "risk_level", "warnings", "requires_sudo"]

/-- `CommandExecutor.analyze_command`: each dangerous pattern found in the
lowercased command sets the risk to "high" and appends a warning; a
case-sensitive `'sudo' in cmd` test then escalates low→medium and
otherwise→high, appends the elevation warning and sets the
`requires_sudo` flag. -/
def analyze_command (cmd : String) : CommandAnalysis :=
  let hits := dangerHits cmd
  let risk_level := if hits.isEmpty then "low" else "high"
  let warnings := hits.map (fun p => "Contains dangerous pattern: " ++ p)
  let hasSudo := substrOf "sudo" cmd
  let risk_level := if hasSudo then (if risk_level = "low" then "medium" else "high") else risk_level
  let warnings := if hasSudo then warnings ++ ["Requires elevated privileges"] else warnings
  { command := cmd
    risk_level := risk_level
    warnings := warnings
    requires_sudo := hasSudo }

/-- The three possible outcomes of the `subprocess.run` call in
`execute_safely`: normal completion with captured stdout/stderr and exit
code, `subprocess.TimeoutExpired`, or any other exception with its
message. -/
inductive ShellOutcome where
  | completed (stdout stderr : String) (returncode : Int)
  | timedOut
  | failed (message : String)

/-- The result dict of `execute_safely` (`return_code` is present only on
the executed path, modelled with `Option`). -/
structure ExecResult where
  executed : Bool
  output : String
  return_code : Option Int
  analysis : CommandAnalysis

/-- `CommandExecutor.execute_safely`.  The subprocess boundary is the
oracle `runShell`; the second component of the result counts how many
times the shell executor was invoked, making "zero process spawns"
directly observable. -/
def execute_safely (cmd : String) (safe_mode : Bool)
    (runShell : String → ShellOutcome) : ExecResult × Nat :=
  let analysis := analyze_command cmd
  if analysis.risk_level = "high" ∧ safe_mode = true then
    ({ executed := false
       output := "Command blocked in safe mode"
       return_code := none
       analysis := analysis }, 0)
  else
    match runShell cmd with
    | .completed out err rc =>
        ({ executed := true
           output := if out = "" then err else out
           return_code := some rc
           analysis := analysis }, 1)
    | .timedOut =>
        ({ executed := false
           output := "Command timed out"
           return_code := none
           analysis := analysis }, 1)
    | .failed msg =>
        ({ executed := false
           output := msg
           return_code := none
           analysis := analysis }, 1)

/-! ### TemplateLoader (`brainstorm_engine.py`, lines 50–103) -/

/-- Python's `s.replace(pat, repl)` on character lists for a non-empty
pattern: scan left to right, replace each non-overlapping occurrence and
continue after the inserted replacement.  The fuel is the length of the
scanned text, which bounds the number of steps since every step consumes
at least one character of `s`. -/
def replaceAll : Nat → List Char → List Char → List Char → List Char
  | 0, _, _, s => s
  | fuel + 1, pat, repl, s =>
    match s with
    | [] => []
    | c :: rest =>
      if pat.isPrefixOf (c :: rest) then
        repl ++ replaceAll fuel pat repl ((c :: rest).drop pat.length)
      else c :: replaceAll fuel pat repl rest

/-- Python's `str.replace` with all occurrences replaced; an empty
pattern interleaves the replacement around every character, exactly as in
Python (the patterns used by `render_template` always contain the two
braces, so they are never empty). -/
def strReplace (s pat repl : String) : String :=
  if pat.data.isEmpty then
    String.mk (repl.data ++ s.data.foldr (fun c acc => c :: (repl.data ++ acc)) [])
  else
    String.mk (replaceAll s.data.length pat.data repl.data s.data)

/-- The `while True` loop of `toggle_block`: find the first start marker,
the first end marker at or after it, and splice in the inner text when
`value` is truthy (a non-empty string), else nothing.  Each iteration
strictly shrinks the text, so fuel `text.length + 1` never runs out
before the `find` fails. -/
def toggleLoop : Nat → String → String → String → String → String
  | 0, _, _, _, text => text
  | fuel + 1, start, stop, value, text =>
    match firstIdxOf start.data text.data with
    | none => text
    | some i =>
      match firstIdxOf stop.data (text.data.drop i) with
      | none => text
      | some dj =>
        let j := i + dj
        let inner := String.mk ((text.data.take j).drop (i + start.length))
        let repl := if value = "" then "" else inner
        let newText :=
          String.mk (text.data.take i ++ repl.data ++ text.data.drop (j + stop.length))
        toggleLoop fuel start stop value newText

/-- `TemplateLoader.render_template`'s inner `toggle_block(text, key,
value)`. -/
def toggle_block (text key value : String) : String :=
  let start := "\x7b\x7b#" ++ key ++ "\x7d\x7d"
  let stop := "\x7b\x7b/" ++ key ++ "\x7d\x7d"
  toggleLoop (text.length + 1) start stop value text

/-- A rendering context: Python's `Dict[str, str]` (which in practice may
also hold `None`), modelled as an insertion-ordered association list with
`Option String` values. -/
def ctxGet (ctx : List (String × Option String)) (k : String) : Option String :=
  ctx.foldl (fun acc p => if p.1 = k then p.2 else acc) none

/-- Python's `v or ''` applied to a possibly-missing string value. -/
def valOr : Option String → String
  | some s => s
  | none => ""

/-- `TemplateLoader.render_template`: resolve the two optional blocks
(`CATEGORY_HINT`, `RETRIEVAL`), then for each key `k` of the context in
insertion order replace every occurrence of the placeholder
`\x7b\x7bk\x7d\x7d` by the key's value (empty when falsy).  Keys absent
from the context are never visited by the loop, so their placeholders
stay in the output verbatim. -/
def render_template (tpl : String) (ctx : List (String × Option String)) : String :=
  let out := tpl
  let out := toggle_block out "CATEGORY_HINT" (valOr (ctxGet ctx "CATEGORY_HINT"))
  let out := toggle_block out "RETRIEVAL" (valOr (ctxGet ctx "RETRIEVAL"))
  ctx.foldl (fun acc kv => strReplace acc ("\x7b\x7b" ++ kv.1 ++ "\x7d\x7d") (valOr kv.2)) out

/-! ### Idea (`brainstorm_engine.py`, lines 21–47)

The Python class also carries a random 8-character uuid `id` and an
`evidence` dict that is only mutated later by probing; neither is read by
any code the claims cover, so they are omitted from the record.  Floats
are modelled as exact rationals. -/

structure Idea where
  hypothesis : String
  category : String
  why : String
  checks : List String
  fixes : List String
  risk : String
  confidence : ℚ
deriving DecidableEq

/-! ### JudgeEngine (`brainstorm_engine.py`, lines 250–349) -/

/-- The only key of `SystemDiagnostics.get_system_info()` the judge reads
is `distro` (via `system_info.get('distro', '')`). -/
structure SystemInfo where
  distro : String

/-- The per-criterion scores dict built by `JudgeEngine._score_idea`; its
key set is exactly these four names. -/
structure Scores where
  safety : ℚ
  success_likelihood : ℚ
  cost : ℚ
  determinism : ℚ

/-- Python's builtin `min` on two numbers (first argument on ties). -/
def pymin (a b : ℚ) : ℚ :=
  if a ≤ b then a else b

/-- Python's `scores.get(key, dflt)` on the four-key scores dict. -/
def scoresGet (s : Scores) (key : String) (dflt : ℚ) : ℚ :=
  if key = "safety" then s.safety
  else if key = "success_likelihood" then s.success_likelihood
  else if key = "cost" then s.cost
  else if key = "determinism" then s.determinism
  else dflt

/-- `risk_map = \x7b'low': 0.9, 'medium': 0.6, 'high': 0.2\x7d` looked up
with default 0.5. -/
def safetyScore (idea : Idea) : ℚ :=
  if idea.risk = "low" then 0.9
  else if idea.risk = "medium" then 0.6
  else if idea.risk = "high" then 0.2
  else 0.5

/-- The `success_likelihood` computation of `_score_idea`: base 0.5,
Ubuntu-specific boosts for `nmcli`/`systemctl` checks, a category-match
boost, one final clamp at 1.0. -/
def successScore (idea : Idea) (issue : String) (si : SystemInfo) : ℚ :=
  let likelihood : ℚ := 0.5
  let likelihood :=
    if substrOf "ubuntu" (lowerStr si.distro) then
      let l :=
        if idea.checks.any (fun c => substrOf "nmcli" (lowerStr c)) then likelihood + 0.3
        else likelihood
      if idea.checks.any (fun c => substrOf "systemctl" (lowerStr c)) then l + 0.2
      else l
    else likelihood
  let issue_lower := lowerStr issue
  let likelihood :=
    if (idea.category == "wifi" && (substrOf "wifi" issue_lower || substrOf "wireless" issue_lower)) ||
       (idea.category == "dns" && (substrOf "dns" issue_lower || substrOf "resolution" issue_lower)) ||
       (idea.category == "network" && (substrOf "network" issue_lower || substrOf "interface" issue_lower)) then
      likelihood + 0.2
    else likelihood
  pymin likelihood 1

/-- The `cost` computation of `_score_idea`: 0.8 default, overridden to
0.3 by a `reboot` fix and then to 0.1 by a `reinstall` fix. -/
def costScore (idea : Idea) : ℚ :=
  let cost : ℚ := 0.8
  let cost := if idea.fixes.any (fun f => substrOf "reboot" (lowerStr f)) then 0.3 else cost
  let cost := if idea.fixes.any (fun f => substrOf "reinstall" (lowerStr f)) then 0.1 else cost
  cost

/-- The `determinism` computation of `_score_idea`: 0.7 default, +0.2
with any check, −0.1 with more than one fix, clamped at 1.0. -/
def determinismScore (idea : Idea) : ℚ :=
  let determinism : ℚ := 0.7
  let determinism := if idea.checks.length > 0 then determinism + 0.2 else determinism
  let determinism := if idea.fixes.length > 1 then determinism - 0.1 else determinism
  pymin determinism 1

/-- `JudgeEngine._score_idea`. -/
def score_idea (idea : Idea) (issue : String) (si : SystemInfo) : Scores :=
  { safety := safetyScore idea
    success_likelihood := successScore idea issue si
    cost := costScore idea
    determinism := determinismScore idea }

/-- The weighted total of `judge_ideas` (source lines 264–269). -/
def total_score_of (scores : Scores) : ℚ :=
  scores.safety * 0.3 + scores.success_likelihood * 0.4 +
    scores.cost * 0.2 + scores.determinism * 0.1

/-- Python's `f"\x7bv:.2f\x7d"` for a non-negative rational `q = n / d`,
computed on integers: the printed hundredths are
`⌊(200 n + d) / (2 d)⌋ = ⌊100 q + 1/2⌋` (half-up rounding; every value
reaching this formatter in the modelled code is the integer 0, where the
model agrees exactly with Python's "0.00"). -/
def fmt2abs (q : ℚ) : String :=
  let c : Nat := ((q.num * 200 + (q.den : Int)) / (2 * (q.den : Int))).toNat
  Nat.repr (c / 100) ++ "." ++
    (if c % 100 < 10 then "0" ++ Nat.repr (c % 100) else Nat.repr (c % 100))

/-- Python's `f"\x7bv:.2f\x7d"`. -/
def fmt2 (q : ℚ) : String :=
  if q.num < 0 then "-" ++ fmt2abs (-q) else fmt2abs q

/-- `JudgeEngine._generate_rationale`: note the opening sentence formats
`scores.get('total_score', 0)` — the scores dict has only the four
per-criterion keys, so the lookup always yields the default 0. -/
def generate_rationale (idea : Idea) (scores : Scores) : String :=
  let rationale := "Scored " ++ fmt2 (scoresGet scores "total_score" 0) ++ "/1.0. "
  let rationale :=
    if scores.safety < 0.5 then rationale ++ "⚠️  High risk approach. "
    else if scores.safety > 0.8 then rationale ++ "✅ Safe approach. "
    else rationale
  let rationale :=
    if scores.success_likelihood > 0.7 then rationale ++ "Strong success indicators. "
    else if scores.success_likelihood < 0.4 then rationale ++ "Low success probability. "
    else rationale
  let rationale :=
    if scores.cost < 0.5 then rationale ++ "High cost/time investment."
    else rationale
  strTrim rationale

/-- One entry of the list `judge_ideas` returns (the Python dict
`\x7bidea, scores, total_score, rationale\x7d`; the idea is kept as a
record rather than its `to_dict` serialization). -/
structure ScoredIdea where
  idea : Idea
  scores : Scores
  total_score : ℚ
  rationale : String

/-- Insert into a descending-sorted list, before the first entry with a
strictly smaller total and after entries with an equal total. -/
def insertDesc (x : ScoredIdea) : List ScoredIdea → List ScoredIdea
  | [] => [x]
  | y :: ys => if y.total_score ≤ x.total_score then x :: y :: ys else y :: insertDesc x ys

/-- Python's `scored_ideas.sort(key=lambda x: x['total_score'],
reverse=True)` — a stable descending sort — modelled as stable insertion
sort. -/
def sortByTotalDesc (l : List ScoredIdea) : List ScoredIdea :=
  l.foldr insertDesc []

/-- `JudgeEngine.judge_ideas`: score every idea, attach total and
rationale, sort descending by total. -/
def judge_ideas (ideas : List Idea) (issue : String) (si : SystemInfo) : List ScoredIdea :=
  let scored := ideas.map (fun idea =>
    let scores := score_idea idea issue si
    { idea := idea
      scores := scores
      total_score := total_score_of scores
      rationale := generate_rationale idea scores : ScoredIdea })
  sortByTotalDesc scored

/-- The idea `i` with its risk field overwritten — used to express "two
ideas identical in every field except risk". -/
def withRisk (i : Idea) (r : String) : Idea :=
  { i with risk := r }

/-! ### A model of Python's `json.loads`

`_parse_ideas_response` leans on the standard library's strict JSON
parser.  It is modelled here over character lists: JSON whitespace is
space/tab/newline/carriage-return, strings support the eight standard
escapes and `\uXXXX` (decoded as a single code point; surrogate-pair
combination is outside the model and outside every input the code's
claims exercise), numbers follow the JSON grammar and are kept as a
decimal mantissa/exponent pair (no idea field is ever built from a JSON
number), and trailing non-whitespace input makes the whole parse fail,
as in `json.loads`. -/

inductive JVal where
  | null
  | bool (b : Bool)
  | num (mant : Int) (exp10 : Int)
  | str (s : String)
  | arr (elems : List JVal)
  | obj (fields : List (String × JVal))

/-- JSON structural whitespace. -/
def skipWs : List Char → List Char
  | [] => []
  | c :: rest =>
      if c = ' ' ∨ c = '\t' ∨ c = '\n' ∨ c = '\r' then skipWs rest else c :: rest

/-- Hex digit value, if any. -/
def hexVal (c : Char) : Option Nat :=
  if c.isDigit then some (c.toNat - 48)
  else if 'a' ≤ c ∧ c ≤ 'f' then some (c.toNat - 87)
  else if 'A' ≤ c ∧ c ≤ 'F' then some (c.toNat - 55)
  else none

/-- The single-character JSON string escapes. -/
def escChar (c : Char) : Option Char :=
  if c = '\x22' then some '\x22'
  else if c = '\\' then some '\\'
  else if c = '/' then some '/'
  else if c = 'b' then some (Char.ofNat 8)
  else if c = 'f' then some (Char.ofNat 12)
  else if c = 'n' then some '\n'
  else if c = 'r' then some '\r'
  else if c = 't' then some '\t'
  else none

/-- Parse the remainder of a JSON string after the opening quote;
returns the decoded characters and the input after the closing quote.
Unescaped control characters are rejected, as in strict `json.loads`. -/
def parseStrChars : List Char → Option (List Char × List Char)
  | [] => none
  | '\x22' :: rest => some ([], rest)
  | '\\' :: 'u' :: h1 :: h2 :: h3 :: h4 :: rest =>
    (match hexVal h1, hexVal h2, hexVal h3, hexVal h4 with
     | some a, some b, some c, some d =>
        (parseStrChars rest).map
          (fun p => (Char.ofNat (((a * 16 + b) * 16 + c) * 16 + d) :: p.1, p.2))
     | _, _, _, _ => none)
  | '\\' :: e :: rest =>
    (match escChar e with
     | some c => (parseStrChars rest).map (fun p => (c :: p.1, p.2))
     | none => none)
  | c :: rest =>
      if c.toNat < 32 then none
      else (parseStrChars rest).map (fun p => (c :: p.1, p.2))

/-- Parse a JSON string body (after the opening quote). -/
def parseStr (cs : List Char) : Option (String × List Char) :=
  (parseStrChars cs).map (fun p => (String.mk p.1, p.2))

/-- Split off a maximal run of decimal digits. -/
def spanDigits : List Char → List Char × List Char
  | [] => ([], [])
  | c :: rest =>
      if c.isDigit then
        let p := spanDigits rest
        (c :: p.1, p.2)
      else ([], c :: rest)

/-- Digits to a natural number. -/
def digitsToNat (ds : List Char) : Nat :=
  ds.foldl (fun a c => a * 10 + (c.toNat - 48)) 0

/-- Assemble a parsed JSON number from its sign, integer digits,
fraction digits and signed exponent digits. -/
def mkNum (neg : Bool) (intDs fracDs : List Char) (expNeg : Bool) (expDs : List Char) : JVal :=
  let m : Int := Int.ofNat (digitsToNat (intDs ++ fracDs))
  let mant : Int := if neg then -m else m
  let e : Int := if expNeg then -(Int.ofNat (digitsToNat expDs)) else Int.ofNat (digitsToNat expDs)
  JVal.num mant (e - Int.ofNat fracDs.length)

/-- Parse the optional exponent part and finish the number. -/
def parseExpPart (neg : Bool) (intDs fracDs : List Char) (cs : List Char) :
    Option (JVal × List Char) :=
  match cs with
  | 'e' :: r =>
    (match r with
     | '+' :: r2 =>
        (match spanDigits r2 with
         | ([], _) => none
         | (es, cs2) => some (mkNum neg intDs fracDs false es, cs2))
     | '-' :: r2 =>
        (match spanDigits r2 with
         | ([], _) => none
         | (es, cs2) => some (mkNum neg intDs fracDs true es, cs2))
     | _ =>
        (match spanDigits r with
         | ([], _) => none
         | (es, cs2) => some (mkNum neg intDs fracDs false es, cs2)))
  | 'E' :: r =>
    (match r with
     | '+' :: r2 =>
        (match spanDigits r2 with
         | ([], _) => none
         | (es, cs2) => some (mkNum neg intDs fracDs false es, cs2))
     | '-' :: r2 =>
        (match spanDigits r2 with
         | ([], _) => none
         | (es, cs2) => some (mkNum neg intDs fracDs true es, cs2))
     | _ =>
        (match spanDigits r with
         | ([], _) => none
         | (es, cs2) => some (mkNum neg intDs fracDs false es, cs2)))
  | _ => some (mkNum neg intDs fracDs false [], cs)

/-- Parse a JSON number (with JSON's no-leading-zero rule). -/
def parseNum (cs : List Char) : Option (JVal × List Char) :=
  let sp : Bool × List Char :=
    match cs with
    | '-' :: r => (true, r)
    | _ => (false, cs)
  match spanDigits sp.2 with
  | ([], _) => none
  | (d :: ds, cs2) =>
    if d = '0' ∧ ds ≠ [] then none
    else
      match cs2 with
      | '.' :: r =>
        (match spanDigits r with
         | ([], _) => none
         | (fs, cs3) => parseExpPart sp.1 (d :: ds) fs cs3)
      | _ => parseExpPart sp.1 (d :: ds) [] cs2

mutual

/-- Parse one JSON value; the fuel (at least the input length plus one)
bounds the nesting depth, each level of which consumes at least one
character. -/
def parseVal : Nat → List Char → Option (JVal × List Char)
  | 0, _ => none
  | fuel + 1, cs =>
    match skipWs cs with
    | 'n' :: 'u' :: 'l' :: 'l' :: rest => some (JVal.null, rest)
    | 't' :: 'r' :: 'u' :: 'e' :: rest => some (JVal.bool true, rest)
    | 'f' :: 'a' :: 'l' :: 's' :: 'e' :: rest => some (JVal.bool false, rest)
    | '\x22' :: rest =>
        (match parseStr rest with
         | some (s, rest2) => some (JVal.str s, rest2)
         | none => none)
    | '[' :: rest => parseArrElems fuel (skipWs rest)
    | '\x7b' :: rest => parseObjFields fuel (skipWs rest)
    | cs2 => parseNum cs2

/-- After `[` and whitespace: empty array or first element. -/
def parseArrElems : Nat → List Char → Option (JVal × List Char)
  | 0, _ => none
  | fuel + 1, cs =>
    match cs with
    | ']' :: rest => some (JVal.arr [], rest)
    | _ =>
      match parseVal fuel cs with
      | none => none
      | some (v, rest) => parseArrRest fuel [v] (skipWs rest)

/-- Remaining `, value` pairs of an array (accumulator reversed). -/
def parseArrRest : Nat → List JVal → List Char → Option (JVal × List Char)
  | 0, _, _ => none
  | fuel + 1, acc, cs =>
    match cs with
    | ']' :: rest => some (JVal.arr acc.reverse, rest)
    | ',' :: rest =>
      (match parseVal fuel (skipWs rest) with
       | none => none
       | some (v, rest2) => parseArrRest fuel (v :: acc) (skipWs rest2))
    | _ => none

/-- After `\x7b` and whitespace: empty object or first member. -/
def parseObjFields : Nat → List Char → Option (JVal × List Char)
  | 0, _ => none
  | fuel + 1, cs =>
    match cs with
    | '\x7d' :: rest => some (JVal.obj [], rest)
    | _ =>
      match parseMember fuel cs with
      | none => none
      | some (kv, rest) => parseObjRest fuel [kv] (skipWs rest)

/-- Remaining `, "key": value` members of an object. -/
def parseObjRest : Nat → List (String × JVal) → List Char → Option (JVal × List Char)
  | 0, _, _ => none
  | fuel + 1, acc, cs =>
    match cs with
    | '\x7d' :: rest => some (JVal.obj acc.reverse, rest)
    | ',' :: rest =>
      (match parseMember fuel (skipWs rest) with
       | none => none
       | some (kv, rest2) => parseObjRest fuel (kv :: acc) (skipWs rest2))
    | _ => none

/-- One `"key": value` member. -/
def parseMember : Nat → List Char → Option ((String × JVal) × List Char)
  | 0, _ => none
  | fuel + 1, cs =>
    match cs with
    | '\x22' :: rest =>
      (match parseStr rest with
       | none => none
       | some (k, rest2) =>
          match skipWs rest2 with
          | ':' :: rest3 =>
            (match parseVal fuel (skipWs rest3) with
             | none => none
             | some (v, rest4) => some ((k, v), rest4))
          | _ => none)
    | _ => none

end

/-- Python's `json.loads`: parse one value and require only whitespace
after it ("Extra data" otherwise). -/
def json_loads (s : String) : Option JVal :=
  match parseVal (s.length + 1) s.data with
  | some (v, rest) => if (skipWs rest).isEmpty then some v else none
  | none => none

/-! ### BrainstormEngine response parsing
(`brainstorm_engine.py`, lines 147–247) -/

/-- Python's dict lookup on the field list `json.loads` produced for an
object (later duplicate keys override earlier ones, as in `json.loads`'s
dict construction). -/
def jGet (fields : List (String × JVal)) (k : String) : Option JVal :=
  fields.foldl (fun acc p => if p.1 = k then some p.2 else acc) none

/-- `obj.get(k, dflt)` for the string-valued idea fields.  A present
non-string value collapses to the default in this model (Python would
carry the raw value into the Idea; no claim and no modelled input
exercises a non-string value for these keys). -/
def getStrField (fields : List (String × JVal)) (k dflt : String) : String :=
  match jGet fields k with
  | some (JVal.str s) => s
  | some _ => dflt
  | none => dflt

/-- `obj.get(k, [])` followed by the Idea constructor's `checks or []`
for the list-valued fields; non-string elements are dropped by the model
(no claim exercises them). -/
def getStrListField (fields : List (String × JVal)) (k : String) : List String :=
  match jGet fields k with
  | some (JVal.arr xs) =>
      xs.filterMap (fun v => match v with | JVal.str s => some s | _ => none)
  | _ => []

/-- The inner `to_idea(obj)` of `_parse_ideas_response`: per-field
defaults for absent keys; note risk defaults to "medium" here (the bare
`Idea` constructor default is "low"), and confidence is never taken from
the object, so it keeps the constructor default 0.5. -/
def to_idea (fields : List (String × JVal)) : Idea :=
  { hypothesis := getStrField fields "hypothesis" "Unknown hypothesis"
    category := getStrField fields "category" "general"
    why := getStrField fields "why" "No reasoning provided"
    checks := getStrListField fields "checks"
    fixes := getStrListField fields "fixes"
    risk := getStrField fields "risk" "medium"
    confidence := 0.5 }

/-- The shared shape rules of strategies 1 and 2: a top-level array
keeps its dict items; a dict is either an `"ideas"` wrapper whose list's
dict items are kept, or a single idea object; any other value yields
nothing. -/
def ideasFromParsed : JVal → List Idea
  | JVal.arr items =>
      items.filterMap (fun v => match v with | JVal.obj fs => some (to_idea fs) | _ => none)
  | JVal.obj fs =>
      (match jGet fs "ideas" with
       | some (JVal.arr items) =>
          items.filterMap (fun v => match v with | JVal.obj fs2 => some (to_idea fs2) | _ => none)
       | _ => [to_idea fs])
  | _ => []

/-- Strategy 1: direct `json.loads` of the whole response. -/
def wholeResponseIdeas (text : String) : List Idea :=
  match json_loads text with
  | some v => ideasFromParsed v
  | none => []

/-- The body start after an opening fence: the regex
` ``` (?:json)?\n ` greedily takes a case-insensitive `json` tag when a
newline follows it, else requires the newline immediately. -/
def fenceBodyStart (cs : List Char) : Option (List Char) :=
  match cs with
  | c1 :: c2 :: c3 :: c4 :: '\n' :: rest =>
      if [c1, c2, c3, c4].map Char.toLower = ['j', 's', 'o', 'n'] then some rest
      else
        match cs with
        | '\n' :: r => some r
        | _ => none
  | '\n' :: r => some r
  | _ => none

/-- Scan for fenced blocks exactly as `re.findall` does with the pattern
` ```(?:json)?\n(.*?)``` ` under DOTALL|IGNORECASE: at each position try
an opening fence, lazily capture to the nearest closing fence, and
resume after it; on failure move one character forward. -/
def fenceScan : Nat → List Char → List (List Char)
  | 0, _ => []
  | _ + 1, [] => []
  | fuel + 1, c :: rest =>
    match c :: rest with
    | '\x60' :: '\x60' :: '\x60' :: afterTicks =>
      (match fenceBodyStart afterTicks with
       | some body =>
          (match firstIdxOf ['\x60', '\x60', '\x60'] body with
           | some idx => body.take idx :: fenceScan fuel (body.drop (idx + 3))
           | none => fenceScan fuel rest)
       | none => fenceScan fuel rest)
    | _ => fenceScan fuel rest

/-- All fenced code block bodies of the text, in order. -/
def fencedBlocks (text : String) : List (List Char) :=
  fenceScan text.data.length text.data

/-- Strategy 2's per-block handling: strip, `json.loads`, same shape
rules as strategy 1. -/
def blockIdeas (block : List Char) : List Idea :=
  match json_loads (strTrim (String.mk block)) with
  | some v => ideasFromParsed v
  | none => []

/-- Strategy 2: parse every fenced block, concatenating results. -/
def fencedBlockIdeas (text : String) : List Idea :=
  (fencedBlocks text).foldl (fun acc b => acc ++ blockIdeas b) []

/-- A numbered-list match attempt at a line start, following
`^\d+\.\s*(\x7b.*?\x7d)` under MULTILINE|DOTALL: one-or-more digits, a
dot, any whitespace, then a lazy brace capture up to the nearest `\x7d`.
Returns the capture and the input after it. -/
def tryNumberedAt (cs : List Char) : Option (List Char × List Char) :=
  match spanDigits cs with
  | ([], _) => none
  | (_ :: _, cs2) =>
    match cs2 with
    | '.' :: r =>
      (match trimLeftList r with
       | '\x7b' :: r2 =>
          (match firstIdxOf ['\x7d'] r2 with
           | some idx => some ('\x7b' :: r2.take (idx + 1), r2.drop (idx + 1))
           | none => none)
       | _ => none)
    | _ => none

/-- `re.findall` scanning for the numbered pattern: `^` under MULTILINE
anchors attempts at position 0 and after each newline; after a match the
scan resumes at the match end. -/
def numScan : Nat → Bool → List Char → List (List Char)
  | 0, _, _ => []
  | _ + 1, _, [] => []
  | fuel + 1, atStart, c :: rest =>
    if atStart then
      match tryNumberedAt (c :: rest) with
      | some (cap, rem) => cap :: numScan fuel false rem
      | none => numScan fuel (c = '\n') rest
    else numScan fuel (c = '\n') rest

/-- The numbered-list captures of the text, in order of appearance. -/
def numberedCaptures (text : String) : List (List Char) :=
  numScan text.data.length true text.data

/-- Strategy 3: `json.loads` each numbered capture, keeping dicts. -/
def numberedListIdeas (text : String) : List Idea :=
  (numberedCaptures text).foldl (fun acc cap =>
    match json_loads (String.mk cap) with
    | some (JVal.obj fs) => acc ++ [to_idea fs]
    | _ => acc) []

/-- The per-character state of strategy 4's balanced-brace scan: the
current buffer, the (possibly negative) nesting depth, and the ideas
collected so far. -/
structure BraceScanState where
  buf : List Char
  depth : Int
  ideas : List Idea

/-- One character step of the balanced-brace scan, in the source's exact
statement order: bump depth on `\x7b`, buffer while depth positive, on
`\x7d` decrement and, at depth 0 with a non-empty buffer, parse the
candidate (resetting the buffer whether or not the parse succeeds). -/
def braceStep (st : BraceScanState) (ch : Char) : BraceScanState :=
  let depth1 := if ch = '\x7b' then st.depth + 1 else st.depth
  let buf1 := if depth1 > 0 then st.buf ++ [ch] else st.buf
  if ch = '\x7d' then
    let depth2 := depth1 - 1
    if depth2 = 0 ∧ ¬ buf1.isEmpty then
      match json_loads (String.mk buf1) with
      | some (JVal.obj fs) =>
          { buf := [], depth := depth2, ideas := st.ideas ++ [to_idea fs] }
      | _ => { buf := [], depth := depth2, ideas := st.ideas }
    else { buf := buf1, depth := depth2, ideas := st.ideas }
  else { buf := buf1, depth := depth1, ideas := st.ideas }

/-- Strategy 4: linear pass with the brace-depth state machine. -/
def braceScanIdeas (text : String) : List Idea :=
  (text.data.foldl braceStep { buf := [], depth := 0, ideas := [] }).ideas

/-- The fallback Idea of strategy 5 (source lines 237–245). -/
def fallbackIdea : Idea :=
  { hypothesis := "Generic troubleshooting approach"
    category := "general"
    why := "LLM response could not be parsed into structured ideas"
    checks := ["echo \x27Manual analysis required\x27"]
    fixes := ["Analyze the issue manually"]
    risk := "low"
    confidence := 0.5 }

/-- `BrainstormEngine._parse_ideas_response`: the ordered cascade of the
four strategies (each later one tried only while no idea has been
found), ending in the single fallback Idea.  A `None` response is
modelled by the empty string (`text = response or ''`); the `issue`
argument is taken but never read, as in the source. -/
def parse_ideas_response (response : String) (issue : String) : List Idea :=
  let text := response
  let ideas := wholeResponseIdeas text
  let ideas := if ideas.isEmpty then fencedBlockIdeas text else ideas
  let ideas := if ideas.isEmpty then numberedListIdeas text else ideas
  let ideas := if ideas.isEmpty then braceScanIdeas text else ideas
  if ideas.isEmpty then [fallbackIdea] else ideas

/-- `BrainstormEngine.generate_ideas`, from the LLM call on: prompt
construction, temperature ladder and token budget only feed the LLM
collaborator, whose reply is the `llm_response` input here; the pure
tail parses the reply and truncates with `ideas[:n]` (`n : Nat` models
the non-negative Python count). -/
def generate_ideas (llm_response : String) (issue : String) (n : Nat) : List Idea :=
  (parse_ideas_response llm_response issue).take n

/-- The placeholder text `\x7b\x7bKEY\x7d\x7d` that `render_template`
builds for a context key (the Python `f"\x7b\x7b\x7b\x7b\x7bk\x7d\x7d\x7d\x7d\x7d"`). -/
def placeholderOf (k : String) : String :=
  "\x7b\x7b" ++ k ++ "\x7d\x7d"

/-- The decomposition that Python's left-to-right `str.replace` scan
induces on its input: the pieces between consecutive (non-overlapping,
leftmost-first) occurrences of `pat`.  Same scan and same fuel discipline
as `replaceAll`, so the two can be related step by step. -/
def splitOnPat : Nat → List Char → List Char → List (List Char)
  | 0, _, s => [s]
  | fuel + 1, pat, s =>
    match s with
    | [] => [[]]
    | c :: rest =>
      if pat.isPrefixOf (c :: rest) then
        [] :: splitOnPat fuel pat ((c :: rest).drop pat.length)
      else
        match splitOnPat fuel pat rest with
        | [] => [[c]]
        | p :: ps => (c :: p) :: ps

/-- Interleave a separator between pieces. -/
def joinWith (sep : List Char) : List (List Char) → List Char
  | [] => []
  | [p] => p
  | p :: q :: rest => p ++ sep ++ joinWith sep (q :: rest)

/-- The C7 example response: a numbered list of two flat JSON idea
objects. -/
def numberedExample : String :=
  "1. \x7b\x22hypothesis\x22: \x22Check DNS settings\x22, \x22category\x22: \x22dns\x22, \x22risk\x22: \x22low\x22\x7d\n2. \x7b\x22hypothesis\x22: \x22Restart the router\x22, \x22category\x22: \x22network\x22, \x22risk\x22: \x22medium\x22\x7d"

/-! ## Theorems -/

/-! ### CommandExecutor -/

/-- C1: for every command whose analyzed risk level is "high", calling
`execute_safely` with `safe_mode = true` returns `executed = false` with
the blocked-output message, and the shell executor is invoked zero
times — for every behaviour `runShell` of the subprocess boundary. -/
theorem execute_safely_blocks_high_risk (cmd : String)
    (runShell : String → ShellOutcome)
    (h : (analyze_command cmd).risk_level = "high") :
    (execute_safely cmd true runShell).1.executed = false ∧
    (execute_safely cmd true runShell).1.output = "Command blocked in safe mode" ∧
    (execute_safely cmd true runShell).2 = 0 := by
  simp [execute_safely, h]

/-- Witness for C1 at the spec's own example `execute_safely("rm -rf /",
safe_mode=true)`. -/
theorem execute_safely_blocks_high_risk_witness :
    (analyze_command "rm -rf /").risk_level = "high" ∧
    ((execute_safely "rm -rf /" true (fun _ => ShellOutcome.timedOut)).1.executed = false ∧
     (execute_safely "rm -rf /" true (fun _ => ShellOutcome.timedOut)).1.output = "Command blocked in safe mode" ∧
     (execute_safely "rm -rf /" true (fun _ => ShellOutcome.timedOut)).2 = 0) :=
  ⟨by decide,
   execute_safely_blocks_high_risk "rm -rf /" (fun _ => ShellOutcome.timedOut) (by decide)⟩

/-- C4 counterexample: the analysis dict returned by `analyze_command`
has no `requires_elevation` entry at all — its key set is exactly
`{command, risk_level, warnings, requires_sudo}` — so even for the
claim's instance `analyze_command "sudo apt update"` no
`requires_elevation=true` is set; the flag the code sets is
`requires_sudo`. -/
theorem analyze_command_has_no_requires_elevation_key :
    "requires_elevation" ∉ analyze_command_keys ∧
    "requires_sudo" ∈ analyze_command_keys ∧
    (analyze_command "sudo apt update").requires_sudo = true := by
  refine ⟨by decide, by decide, by decide⟩

/-- C4 (amended: the elevation flag in the returned analysis is named
`requires_sudo`, not `requires_elevation`): for every command containing
"sudo", `analyze_command` sets `requires_sudo = true`, appends the
elevation warning last, and escalates the risk — "medium" when no
dangerous pattern fired, "high" otherwise — hence the risk is always
"medium" or "high", never "low". -/
theorem analyze_command_sudo_escalates (cmd : String)
    (h : substrOf "sudo" cmd = true) :
    (analyze_command cmd).requires_sudo = true ∧
    (analyze_command cmd).warnings.getLast? = some "Requires elevated privileges" ∧
    (analyze_command cmd).risk_level = (if (dangerHits cmd).isEmpty then "medium" else "high") ∧
    ((analyze_command cmd).risk_level = "medium" ∨ (analyze_command cmd).risk_level = "high") := by
  by_cases he : (dangerHits cmd).isEmpty <;>
    simp [analyze_command, h, he, List.getLast?_concat]

/-- Witness for C4 at the spec's example `analyze_command("sudo apt
update")`: risk escalates from "low" to "medium". -/
theorem analyze_command_sudo_escalates_witness :
    substrOf "sudo" "sudo apt update" = true ∧
    ((analyze_command "sudo apt update").requires_sudo = true ∧
     (analyze_command "sudo apt update").warnings.getLast? = some "Requires elevated privileges" ∧
     (analyze_command "sudo apt update").risk_level = (if (dangerHits "sudo apt update").isEmpty then "medium" else "high") ∧
     ((analyze_command "sudo apt update").risk_level = "medium" ∨
      (analyze_command "sudo apt update").risk_level = "high")) :=
  ⟨by decide, analyze_command_sudo_escalates "sudo apt update" (by decide)⟩

/-- C9: the dangerous substrings are matched against the lowercased
command, but the literal "sudo" test is case-sensitive on the original
command — so any command that avoids lowercase "sudo" (even one
containing "SUDO") and matches no dangerous pattern comes back with risk
"low", an empty warning list, and `requires_sudo = false`. -/
theorem analyze_command_uppercase_sudo_not_escalated (cmd : String)
    (h0 : substrOf "SUDO" cmd = true)
    (h1 : substrOf "sudo" cmd = false)
    (h2 : dangerHits cmd = []) :
    (analyze_command cmd).risk_level = "low" ∧
    (analyze_command cmd).warnings = [] ∧
    (analyze_command cmd).requires_sudo = false := by
  simp [analyze_command, h1, h2]

/-- Witness for C9 at the concrete command "SUDO apt update". -/
theorem analyze_command_uppercase_sudo_not_escalated_witness :
    (substrOf "SUDO" "SUDO apt update" = true ∧
     substrOf "sudo" "SUDO apt update" = false ∧
     dangerHits "SUDO apt update" = []) ∧
    ((analyze_command "SUDO apt update").risk_level = "low" ∧
     (analyze_command "SUDO apt update").warnings = [] ∧
     (analyze_command "SUDO apt update").requires_sudo = false) :=
  ⟨⟨by decide, by decide, by decide⟩,
   analyze_command_uppercase_sudo_not_escalated "SUDO apt update"
     (by decide) (by decide) (by decide)⟩

/-! ### TemplateLoader -/

/-- C8 counterexample: `render_template` does **not** substitute the
empty string for a placeholder whose key is missing from the context —
the replacement loop runs only over the context's own keys, so
`render_template "\x7b\x7bFOO\x7d\x7d" \x7b\x7d` keeps the placeholder
verbatim instead of producing `""`. -/
theorem render_template_missing_key_left_verbatim :
    render_template "\x7b\x7bFOO\x7d\x7d" [] = "\x7b\x7bFOO\x7d\x7d" ∧
    render_template "\x7b\x7bFOO\x7d\x7d" [] ≠ "" := by
  refine ⟨by decide, by decide⟩

/-- Helper: a `isPrefixOf`-prefix glued onto the rest of the list
reassembles it. -/
theorem isPrefixOf_append_drop (pat : List Char) :
    ∀ s : List Char, pat.isPrefixOf s = true → pat ++ s.drop pat.length = s := by
  induction pat with
  | nil => intro s _; simp
  | cons a as ih =>
    intro s h
    cases s with
    | nil => simp [List.isPrefixOf] at h
    | cons b bs =>
      simp only [List.isPrefixOf, Bool.and_eq_true, beq_iff_eq] at h
      obtain ⟨hab, hrest⟩ := h
      subst hab
      simp only [List.length_cons, List.drop_succ_cons, List.cons_append]
      rw [ih bs hrest]

/-- Helper: a prefix of a list is a prefix of any extension of it. -/
theorem isPrefixOf_append_right (pat : List Char) :
    ∀ (l t : List Char), pat.isPrefixOf l = true → pat.isPrefixOf (l ++ t) = true := by
  induction pat with
  | nil =>
    intro l t _
    cases hlt : l ++ t <;> rfl
  | cons a as ih =>
    intro l t h
    cases l with
    | nil => simp [List.isPrefixOf] at h
    | cons b bs =>
      simp only [List.cons_append, List.isPrefixOf, Bool.and_eq_true, beq_iff_eq] at h ⊢
      obtain ⟨hab, hrest⟩ := h
      exact ⟨hab, ih bs t hrest⟩

/-- Helper: the pattern never occurs in the empty piece. -/
theorem firstIdxOf_nil_of_ne_nil (pat : List Char) (hpat : pat ≠ []) :
    firstIdxOf pat [] = none := by
  cases pat with
  | nil => exact absurd rfl hpat
  | cons a as => rfl

/-- Helper: the replace scan always produces at least one piece. -/
theorem splitOnPat_ne_nil (fuel : Nat) (pat s : List Char) :
    splitOnPat fuel pat s ≠ [] := by
  cases fuel with
  | zero => simp [splitOnPat]
  | succ n =>
    cases s with
    | nil => simp [splitOnPat]
    | cons c rest =>
      simp only [splitOnPat]
      split_ifs with h
      · simp
      · cases hsp : splitOnPat n pat rest <;> simp

/-- Helper: `replaceAll` is exactly the scan's pieces joined with the
replacement — every occurrence the left-to-right scan finds is
replaced. -/
theorem replaceAll_eq_joinWith (pat repl : List Char) :
    ∀ (fuel : Nat) (s : List Char),
      replaceAll fuel pat repl s = joinWith repl (splitOnPat fuel pat s) := by
  intro fuel
  induction fuel with
  | zero => intro s; simp [replaceAll, splitOnPat, joinWith]
  | succ n ih =>
    intro s
    cases s with
    | nil => simp [replaceAll, splitOnPat, joinWith]
    | cons c rest =>
      simp only [replaceAll, splitOnPat]
      split_ifs with h
      · rw [ih]
        cases hsp : splitOnPat n pat ((c :: rest).drop pat.length) with
        | nil => exact absurd hsp (splitOnPat_ne_nil n pat _)
        | cons p ps => simp [joinWith]
      · rw [ih]
        cases hsp : splitOnPat n pat rest with
        | nil => exact absurd hsp (splitOnPat_ne_nil n pat rest)
        | cons p ps =>
          cases ps with
          | nil => simp [joinWith]
          | cons q qs => simp [joinWith]

/-- Helper: the scan's pieces joined with the pattern itself reassemble
the input — the matches the scan replaces are genuine occurrences. -/
theorem joinWith_pat_splitOnPat (pat : List Char) :
    ∀ (fuel : Nat) (s : List Char), joinWith pat (splitOnPat fuel pat s) = s := by
  intro fuel
  induction fuel with
  | zero => intro s; simp [splitOnPat, joinWith]
  | succ n ih =>
    intro s
    cases s with
    | nil => simp [splitOnPat, joinWith]
    | cons c rest =>
      simp only [splitOnPat]
      split_ifs with h
      · cases hsp : splitOnPat n pat ((c :: rest).drop pat.length) with
        | nil => exact absurd hsp (splitOnPat_ne_nil n pat _)
        | cons p ps =>
          have hrec := ih ((c :: rest).drop pat.length)
          rw [hsp] at hrec
          have hfinal : pat ++ joinWith pat (p :: ps) = c :: rest := by
            rw [hrec]
            exact isPrefixOf_append_drop pat (c :: rest) h
          exact hfinal
      · cases hsp : splitOnPat n pat rest with
        | nil => exact absurd hsp (splitOnPat_ne_nil n pat rest)
        | cons p ps =>
          have hrec := ih rest
          rw [hsp] at hrec
          cases ps with
          | nil => exact congrArg (List.cons c) hrec
          | cons q qs => exact congrArg (List.cons c) hrec

/-- Helper: the head piece of a split is a prefix of the input. -/
theorem splitOnPat_head_append (pat : List Char) :
    ∀ (fuel : Nat) (s p : List Char) (ps : List (List Char)),
      splitOnPat fuel pat s = p :: ps → ∃ t, s = p ++ t := by
  intro fuel
  induction fuel with
  | zero =>
    intro s p ps h
    simp only [splitOnPat] at h
    obtain ⟨hp, _⟩ := List.cons.inj h
    exact ⟨[], by rw [← hp]; simp⟩
  | succ n ih =>
    intro s p ps h
    cases s with
    | nil =>
      simp only [splitOnPat] at h
      obtain ⟨hp, _⟩ := List.cons.inj h
      exact ⟨[], by rw [← hp]; simp⟩
    | cons c rest =>
      simp only [splitOnPat] at h
      split_ifs at h with hpre
      · obtain ⟨hp, _⟩ := List.cons.inj h
        exact ⟨c :: rest, by rw [← hp]; rfl⟩
      · cases hsp : splitOnPat n pat rest with
        | nil => exact absurd hsp (splitOnPat_ne_nil n pat rest)
        | cons q qs =>
          rw [hsp] at h
          obtain ⟨hp, _⟩ := List.cons.inj h
          obtain ⟨t, ht⟩ := ih rest q qs hsp
          refine ⟨t, ?_⟩
          rw [← hp, ht]
          rfl

/-- Helper: with fuel at least the input length, every piece of the
split is free of the (non-empty) pattern — so a single replace pass
leaves no occurrence unsubstituted among the pieces it keeps. -/
theorem splitOnPat_pieces_pat_free (pat : List Char) (hpat : pat ≠ []) :
    ∀ (fuel : Nat) (s : List Char), s.length ≤ fuel →
      ∀ p ∈ splitOnPat fuel pat s, firstIdxOf pat p = none := by
  intro fuel
  induction fuel with
  | zero =>
    intro s hlen p hp
    have hs : s = [] := List.length_eq_zero.mp (Nat.le_zero.mp hlen)
    subst hs
    simp only [splitOnPat, List.mem_singleton] at hp
    subst hp
    exact firstIdxOf_nil_of_ne_nil pat hpat
  | succ n ih =>
    intro s hlen p hp
    cases s with
    | nil =>
      simp only [splitOnPat, List.mem_singleton] at hp
      subst hp
      exact firstIdxOf_nil_of_ne_nil pat hpat
    | cons c rest =>
      have hplen : 1 ≤ pat.length := by
        cases pat with
        | nil => exact absurd rfl hpat
        | cons a as => simp
      simp only [List.length_cons] at hlen
      simp only [splitOnPat] at hp
      split_ifs at hp with hpre
      · rcases List.mem_cons.mp hp with hp0 | hpmem
        · subst hp0
          exact firstIdxOf_nil_of_ne_nil pat hpat
        · refine ih ((c :: rest).drop pat.length) ?_ p hpmem
          simp only [List.length_drop, List.length_cons]
          omega
      · cases hsp : splitOnPat n pat rest with
        | nil => exact absurd hsp (splitOnPat_ne_nil n pat rest)
        | cons q qs =>
          rw [hsp] at hp
          rcases List.mem_cons.mp hp with hp0 | hpmem
          · have hfreeq : firstIdxOf pat q = none := by
              refine ih rest (by omega) q ?_
              rw [hsp]
              exact List.mem_cons_self _ _
            obtain ⟨t, ht⟩ := splitOnPat_head_append pat n rest q qs hsp
            subst hp0
            simp only [firstIdxOf]
            split_ifs with hpre2
            · exfalso
              have hext : pat.isPrefixOf ((c :: q) ++ t) = true :=
                isPrefixOf_append_right pat (c :: q) t hpre2
              rw [List.cons_append, ← ht] at hext
              exact hpre hext
            · rw [hfreeq]
              rfl
          · refine ih rest (by omega) p ?_
            rw [hsp]
            exact List.mem_cons_of_mem _ hpmem

/-- Helper: a template without a block's start marker is left unchanged
by `toggle_block`, whatever the value. -/
theorem toggle_block_no_marker (text key value : String)
    (h : substrOf ("\x7b\x7b#" ++ key ++ "\x7d\x7d") text = false) :
    toggle_block text key value = text := by
  unfold substrOf at h
  cases hf : firstIdxOf ("\x7b\x7b#" ++ key ++ "\x7d\x7d").data text.data with
  | none => simp only [toggle_block, toggleLoop, hf]
  | some i =>
      rw [hf] at h
      simp at h

/-- Helper: a key's placeholder is never the empty pattern. -/
theorem placeholderOf_data_ne_nil (k : String) : (placeholderOf k).data ≠ [] := by
  show ('\x7b' :: (('\x7b' :: k.data) ++ ['\x7d', '\x7d'])) ≠ []
  exact List.cons_ne_nil _ _

/-- C8 (amended: only placeholders whose key is present in the context
are replaced — with the value, or the empty string when the value is
falsy; a placeholder whose key is missing from the context is left
unchanged).  For every template string and context mapping: (i) each
replacement step of the rendering loop replaces **every** occurrence of
the present key's placeholder — the step's input decomposes into
placeholder-free pieces interleaved with the placeholder, and the step's
output is exactly those pieces interleaved with the key's value (`valOr`
giving the empty string when the value is falsy); (ii) rendering is,
after resolving the two conditional blocks, exactly these replacement
steps for exactly the context's keys in insertion order — a key missing
from the context is never substituted; (iii) hence a context without
keys leaves a block-free template, placeholders included, verbatim. -/
theorem render_template_replaces_present_keys :
    (∀ (s k : String) (v : Option String),
      strReplace s (placeholderOf k) (valOr v) =
        String.mk (joinWith (valOr v).data
          (splitOnPat s.data.length (placeholderOf k).data s.data)) ∧
      joinWith (placeholderOf k).data
          (splitOnPat s.data.length (placeholderOf k).data s.data) = s.data ∧
      ∀ p ∈ splitOnPat s.data.length (placeholderOf k).data s.data,
        firstIdxOf (placeholderOf k).data p = none) ∧
    (∀ (tpl : String) (ctx : List (String × Option String)),
      render_template tpl ctx =
        ctx.foldl
          (fun acc kv => strReplace acc (placeholderOf kv.1) (valOr kv.2))
          (toggle_block
            (toggle_block tpl "CATEGORY_HINT" (valOr (ctxGet ctx "CATEGORY_HINT")))
            "RETRIEVAL" (valOr (ctxGet ctx "RETRIEVAL")))) ∧
    (∀ tpl : String,
      substrOf "\x7b\x7b#CATEGORY_HINT\x7d\x7d" tpl = false →
      substrOf "\x7b\x7b#RETRIEVAL\x7d\x7d" tpl = false →
      render_template tpl [] = tpl) := by
  refine ⟨?_, fun tpl ctx => rfl, ?_⟩
  · intro s k v
    have hne := placeholderOf_data_ne_nil k
    refine ⟨?_, joinWith_pat_splitOnPat _ _ _,
      splitOnPat_pieces_pat_free _ hne _ _ le_rfl⟩
    have hie : (placeholderOf k).data.isEmpty = false := by
      cases hd : (placeholderOf k).data with
      | nil => exact absurd hd hne
      | cons a l => rfl
    have hstep : strReplace s (placeholderOf k) (valOr v) =
        String.mk (replaceAll s.data.length (placeholderOf k).data (valOr v).data s.data) := by
      simp [strReplace, hie]
    rw [hstep]
    exact congrArg String.mk (replaceAll_eq_joinWith _ _ _ _)
  · intro tpl h1 h2
    have e1 : ("\x7b\x7b#" ++ "CATEGORY_HINT" ++ "\x7d\x7d" : String) =
        "\x7b\x7b#CATEGORY_HINT\x7d\x7d" := rfl
    have e2 : ("\x7b\x7b#" ++ "RETRIEVAL" ++ "\x7d\x7d" : String) =
        "\x7b\x7b#RETRIEVAL\x7d\x7d" := rfl
    show toggle_block (toggle_block tpl "CATEGORY_HINT" (valOr (ctxGet [] "CATEGORY_HINT")))
        "RETRIEVAL" (valOr (ctxGet [] "RETRIEVAL")) = tpl
    rw [toggle_block_no_marker tpl "CATEGORY_HINT" (valOr (ctxGet [] "CATEGORY_HINT"))
      (by rw [e1]; exact h1)]
    exact toggle_block_no_marker tpl "RETRIEVAL" (valOr (ctxGet [] "RETRIEVAL"))
      (by rw [e2]; exact h2)

/-- Witness for C8 (amended) at the template
`"A: \x7b\x7bK\x7d\x7d B: \x7b\x7bK\x7d\x7d"` with present key `K` of
value `"x"`, and at the missing-key template `"\x7b\x7bFOO\x7d\x7d"`
with an empty context: both placeholder occurrences are replaced, the
piece `"A: "` is placeholder-free, and the missing key's placeholder
survives verbatim. -/
theorem render_template_replaces_present_keys_witness :
    ("A: ".data ∈ splitOnPat ("A: \x7b\x7bK\x7d\x7d B: \x7b\x7bK\x7d\x7d" : String).data.length
        (placeholderOf "K").data ("A: \x7b\x7bK\x7d\x7d B: \x7b\x7bK\x7d\x7d" : String).data ∧
     firstIdxOf (placeholderOf "K").data "A: ".data = none) ∧
    (substrOf "\x7b\x7b#CATEGORY_HINT\x7d\x7d" "\x7b\x7bFOO\x7d\x7d" = false ∧
     substrOf "\x7b\x7b#RETRIEVAL\x7d\x7d" "\x7b\x7bFOO\x7d\x7d" = false ∧
     render_template "\x7b\x7bFOO\x7d\x7d" [] = "\x7b\x7bFOO\x7d\x7d") ∧
    strReplace "A: \x7b\x7bK\x7d\x7d B: \x7b\x7bK\x7d\x7d" (placeholderOf "K") (valOr (some "x")) =
      "A: x B: x" :=
  ⟨⟨by decide,
    (render_template_replaces_present_keys.1
      "A: \x7b\x7bK\x7d\x7d B: \x7b\x7bK\x7d\x7d" "K" (some "x")).2.2 "A: ".data (by decide)⟩,
   ⟨by decide, by decide,
    render_template_replaces_present_keys.2.2 "\x7b\x7bFOO\x7d\x7d" (by decide) (by decide)⟩,
   by decide⟩

/-! ### JudgeEngine -/

/-- C5: for any two ideas identical except for risk "low" vs "high", the
low-risk one gets a strictly greater weighted total, and it is placed
first by `judge_ideas` whichever order the pair arrives in. -/
theorem judge_low_risk_beats_high_risk (i : Idea) (issue : String) (si : SystemInfo) :
    total_score_of (score_idea (withRisk i "low") issue si) >
      total_score_of (score_idea (withRisk i "high") issue si) ∧
    (judge_ideas [withRisk i "high", withRisk i "low"] issue si).map ScoredIdea.idea =
      [withRisk i "low", withRisk i "high"] ∧
    (judge_ideas [withRisk i "low", withRisk i "high"] issue si).map ScoredIdea.idea =
      [withRisk i "low", withRisk i "high"] := by
  have hsucc : successScore (withRisk i "low") issue si =
      successScore (withRisk i "high") issue si := rfl
  have hcost : costScore (withRisk i "low") = costScore (withRisk i "high") := rfl
  have hdet : determinismScore (withRisk i "low") = determinismScore (withRisk i "high") := rfl
  have hL : safetyScore (withRisk i "low") = 0.9 := rfl
  have hH : safetyScore (withRisk i "high") = 0.2 := rfl
  have htot : total_score_of (score_idea (withRisk i "low") issue si) >
      total_score_of (score_idea (withRisk i "high") issue si) := by
    simp only [total_score_of, score_idea, hsucc, hcost, hdet, hL, hH]
    have h27 : (0.2 : ℚ) * 0.3 < 0.9 * 0.3 := by norm_num
    linarith
  refine ⟨htot, ?_, ?_⟩
  · have hnle : ¬ (total_score_of (score_idea (withRisk i "low") issue si) ≤
        total_score_of (score_idea (withRisk i "high") issue si)) := not_le.mpr htot
    simp [judge_ideas, sortByTotalDesc, insertDesc, hnle]
  · have hle : total_score_of (score_idea (withRisk i "high") issue si) ≤
        total_score_of (score_idea (withRisk i "low") issue si) := le_of_lt htot
    simp [judge_ideas, sortByTotalDesc, insertDesc, hle]

/-- C6: for any idea whose risk is one of low/medium/high, the weighted
total score lies in [0, 1]. -/
theorem total_score_in_unit_interval (idea : Idea) (issue : String) (si : SystemInfo)
    (h : idea.risk = "low" ∨ idea.risk = "medium" ∨ idea.risk = "high") :
    0 ≤ total_score_of (score_idea idea issue si) ∧
    total_score_of (score_idea idea issue si) ≤ 1 := by
  have hs : 0 ≤ safetyScore idea ∧ safetyScore idea ≤ 1 := by
    simp only [safetyScore]
    split_ifs <;> constructor <;> linarith
  have hp : 0 ≤ successScore idea issue si ∧ successScore idea issue si ≤ 1 := by
    simp only [successScore, pymin]
    split_ifs <;> constructor <;> linarith
  have hc : 0 ≤ costScore idea ∧ costScore idea ≤ 1 := by
    simp only [costScore]
    split_ifs <;> constructor <;> linarith
  have hd : 0 ≤ determinismScore idea ∧ determinismScore idea ≤ 1 := by
    simp only [determinismScore, pymin]
    split_ifs <;> constructor <;> linarith
  obtain ⟨hs0, hs1⟩ := hs
  obtain ⟨hp0, hp1⟩ := hp
  obtain ⟨hc0, hc1⟩ := hc
  obtain ⟨hd0, hd1⟩ := hd
  simp only [total_score_of, score_idea]
  constructor <;> nlinarith

/-- Witness for C6 at a concrete low-risk wifi idea on an Ubuntu
system. -/
theorem total_score_in_unit_interval_witness :
    ((Idea.mk "Restart NetworkManager" "wifi" "service may be stuck"
        ["nmcli device status"] ["sudo systemctl restart NetworkManager"] "low" 0.5).risk = "low" ∨
     (Idea.mk "Restart NetworkManager" "wifi" "service may be stuck"
        ["nmcli device status"] ["sudo systemctl restart NetworkManager"] "low" 0.5).risk = "medium" ∨
     (Idea.mk "Restart NetworkManager" "wifi" "service may be stuck"
        ["nmcli device status"] ["sudo systemctl restart NetworkManager"] "low" 0.5).risk = "high") ∧
    (0 ≤ total_score_of (score_idea
        (Idea.mk "Restart NetworkManager" "wifi" "service may be stuck"
          ["nmcli device status"] ["sudo systemctl restart NetworkManager"] "low" 0.5)
        "my wifi is down" (SystemInfo.mk "Ubuntu 22.04")) ∧
     total_score_of (score_idea
        (Idea.mk "Restart NetworkManager" "wifi" "service may be stuck"
          ["nmcli device status"] ["sudo systemctl restart NetworkManager"] "low" 0.5)
        "my wifi is down" (SystemInfo.mk "Ubuntu 22.04")) ≤ 1) :=
  ⟨Or.inl rfl,
   total_score_in_unit_interval
     (Idea.mk "Restart NetworkManager" "wifi" "service may be stuck"
       ["nmcli device status"] ["sudo systemctl restart NetworkManager"] "low" 0.5)
     "my wifi is down" (SystemInfo.mk "Ubuntu 22.04") (Or.inl rfl)⟩

/-- Helper for C10: whatever the per-criterion values, the rationale
begins with "Scored 0.00/1.0." because `scores.get('total_score', 0)`
always falls back to 0. -/
theorem rationale_begins_scored_zero (idea : Idea) (scores : Scores) :
    strStartsWith (generate_rationale idea scores) "Scored 0.00/1.0." = true := by
  have h0 : scoresGet scores "total_score" 0 = 0 := rfl
  simp only [generate_rationale, h0]
  split_ifs <;> decide

/-- Helper: `insertDesc` preserves `List.all`. -/
theorem all_insertDesc (p : ScoredIdea → Bool) (x : ScoredIdea) (l : List ScoredIdea) :
    (insertDesc x l).all p = (p x && l.all p) := by
  induction l with
  | nil => simp [insertDesc]
  | cons y ys ih =>
      by_cases hc : y.total_score ≤ x.total_score
      · simp [insertDesc, hc]
      · simp only [insertDesc, hc, if_false, List.all_cons, ih]
        cases p x <;> cases p y <;> simp

/-- Helper: the stable descending sort preserves `List.all`. -/
theorem all_sortByTotalDesc (p : ScoredIdea → Bool) (l : List ScoredIdea) :
    (sortByTotalDesc l).all p = l.all p := by
  induction l with
  | nil => rfl
  | cons x xs ih =>
      rw [show sortByTotalDesc (x :: xs) = insertDesc x (sortByTotalDesc xs) from rfl,
        all_insertDesc, ih, List.all_cons]

/-- C10: every entry `judge_ideas` returns carries a rationale beginning
with "Scored 0.00/1.0." regardless of the idea's actual total score: the
rationale is generated from the per-criterion scores dict, which has no
`total_score` key, so the formatted lookup falls back to 0. -/
theorem judge_rationale_always_scored_zero (ideas : List Idea) (issue : String) (si : SystemInfo) :
    ((judge_ideas ideas issue si).all
      fun e => strStartsWith e.rationale "Scored 0.00/1.0.") = true := by
  simp only [judge_ideas, all_sortByTotalDesc, List.all_map]
  simp [Function.comp, rationale_begins_scored_zero]

/-! ### BrainstormEngine response parsing -/

/-- Helper: a cascade step that keeps a non-empty list, with a non-empty
default, is never empty. -/
theorem ite_keepNonempty {α : Type} (l d : List α) (hd : d ≠ []) :
    (if l.isEmpty then d else l) ≠ [] := by
  by_cases h : l.isEmpty = true
  · rw [if_pos h]; exact hd
  · rw [if_neg h]
    intro hc
    rw [hc] at h
    exact h rfl

/-- Helper: the strategy cascade ends with the fallback, so
`_parse_ideas_response` never returns an empty list. -/
theorem parse_ideas_response_ne_nil (response issue : String) :
    parse_ideas_response response issue ≠ [] := by
  unfold parse_ideas_response
  exact ite_keepNonempty _ _ (List.cons_ne_nil _ _)

/-- C2: whenever none of the four parsing strategies (whole-response
JSON, fenced code blocks, numbered list, balanced-brace scan) yields an
idea, the parser returns exactly the one fallback Idea, whose hypothesis
is "Generic troubleshooting approach", category "general" and risk
"low"; in particular the result is not the empty list. -/
theorem parse_failure_yields_single_fallback (response issue : String)
    (h1 : wholeResponseIdeas response = [])
    (h2 : fencedBlockIdeas response = [])
    (h3 : numberedListIdeas response = [])
    (h4 : braceScanIdeas response = []) :
    parse_ideas_response response issue = [fallbackIdea] ∧
    parse_ideas_response response issue ≠ [] ∧
    fallbackIdea.hypothesis = "Generic troubleshooting approach" ∧
    fallbackIdea.category = "general" ∧
    fallbackIdea.risk = "low" := by
  refine ⟨?_, parse_ideas_response_ne_nil response issue, rfl, rfl, rfl⟩
  simp [parse_ideas_response, h1, h2, h3, h4]

/-- Witness for C2 at a concrete unparsable LLM reply. -/
theorem parse_failure_yields_single_fallback_witness :
    (wholeResponseIdeas "The system seems fine." = [] ∧
     fencedBlockIdeas "The system seems fine." = [] ∧
     numberedListIdeas "The system seems fine." = [] ∧
     braceScanIdeas "The system seems fine." = []) ∧
    (parse_ideas_response "The system seems fine." "wifi down" = [fallbackIdea] ∧
     parse_ideas_response "The system seems fine." "wifi down" ≠ [] ∧
     fallbackIdea.hypothesis = "Generic troubleshooting approach" ∧
     fallbackIdea.category = "general" ∧
     fallbackIdea.risk = "low") :=
  ⟨⟨rfl, rfl, rfl, rfl⟩,
   parse_failure_yields_single_fallback "The system seems fine." "wifi down" rfl rfl rfl rfl⟩

/-- C3 counterexample: at requested count `n = 0` the truncation
`ideas[:n]` discards even the guaranteed fallback idea, so
`generate_ideas` returns the empty list — the claimed "never zero" fails
for the requested count 0. -/
theorem generate_ideas_count_zero_returns_empty :
    generate_ideas "unparsable reply" "network outage" 0 = [] := rfl

/-- C3 (amended: for every requested count `n ≥ 1`): the result has at
most `n` ideas and is never empty, and when the reply parses into at
least `n` ideas, exactly `n` are returned. -/
theorem generate_ideas_bounds (llm_response issue : String) (n : Nat) (h : 1 ≤ n) :
    (generate_ideas llm_response issue n).length ≤ n ∧
    generate_ideas llm_response issue n ≠ [] ∧
    (n ≤ (parse_ideas_response llm_response issue).length →
      (generate_ideas llm_response issue n).length = n) := by
  refine ⟨?_, ?_, ?_⟩
  · simp only [generate_ideas, List.length_take]
    omega
  · have hne := parse_ideas_response_ne_nil llm_response issue
    unfold generate_ideas
    cases hp : parse_ideas_response llm_response issue with
    | nil => exact absurd hp hne
    | cons a l =>
        cases n with
        | zero => exact absurd h (by omega)
        | succ m => simp
  · intro hlen
    simp only [generate_ideas, List.length_take]
    omega

/-- Witness for C3 (amended) at `n = 1` with an unparsable reply. -/
theorem generate_ideas_bounds_witness :
    1 ≤ 1 ∧
    ((generate_ideas "no structured reply" "wifi" 1).length ≤ 1 ∧
     generate_ideas "no structured reply" "wifi" 1 ≠ [] ∧
     (1 ≤ (parse_ideas_response "no structured reply" "wifi").length →
       (generate_ideas "no structured reply" "wifi" 1).length = 1)) :=
  ⟨le_refl 1, generate_ideas_bounds "no structured reply" "wifi" 1 (le_refl 1)⟩

set_option maxRecDepth 100000 in
/-- C7: on the response `"1. \x7b...\x7d\n2. \x7b...\x7d"` holding two
valid JSON idea objects, the numbered-list strategy extracts exactly the
two ideas, in the order the numbered items appear; moreover the full
cascade returns exactly the numbered-list strategy's result for this
response (strategies 1 and 2 find nothing). -/
theorem numbered_list_extracts_two_ideas :
    numberedListIdeas numberedExample =
      [to_idea [("hypothesis", JVal.str "Check DNS settings"), ("category", JVal.str "dns"),
         ("risk", JVal.str "low")],
       to_idea [("hypothesis", JVal.str "Restart the router"), ("category", JVal.str "network"),
         ("risk", JVal.str "medium")]] ∧
    (numberedListIdeas numberedExample).length = 2 ∧
    (numberedListIdeas numberedExample).map Idea.hypothesis =
      ["Check DNS settings", "Restart the router"] ∧
    parse_ideas_response numberedExample "dns issue" = numberedListIdeas numberedExample :=
  ⟨rfl, rfl, rfl, rfl⟩

end RoadNerd
